import Mathlib

/-!
Shallow embedding of `src/game_animator.py` (class `AnimatedCharacter`).

Images are modelled by their pixel dimensions `(width, height) : Nat × Nat`;
the result of `pygame.image.load` is an `Option (Nat × Nat)` parameter.
The Python dict `self.animations` is an association list with
insert-or-replace semantics.  Machine integers are `Int`/`Nat` (Python ints
are unbounded, so no wrap-around modelling is needed).  `update` returns
`Option`: `none` models the `KeyError`/`IndexError` the Python code raises
when the current clip is missing or the current frame indexes past the
precomputed `frame_positions` list in `_update_image`.
-/

/-- Direction-mode constants `AUTO_FLIP`, `SEPARATE_DIRECTIONS`, `NO_FLIP`. -/
inductive DirectionMode where
  | auto_flip
  | separate_directions
  | no_flip
deriving DecidableEq, Repr

/-- One entry of `self.animations`: the per-clip dict built by the three
registration methods.  `sprite_image` is the dimensions of the referenced
image; `frame_positions` is empty for clips built by `add_animation`
(mode `"separate"`), which compute frame x-offsets on the fly. -/
structure Clip where
  mode : String
  sprite_image : Nat × Nat
  frame_width : Nat
  frame_height : Nat
  frames : Nat
  speed : Nat
  loop : Bool
  finished : Bool
  frame_positions : List (Nat × Nat)
deriving DecidableEq, Repr

/-- Association list with Python-dict insert-or-replace semantics. -/
def dictSet (m : List (String × Clip)) (k : String) (v : Clip) :
    List (String × Clip) :=
  match m with
  | [] => [(k, v)]
  | (k1, v1) :: rest =>
      if k1 = k then (k, v) :: rest else (k1, v1) :: dictSet rest k v

/-- Python dict lookup `m[k]`, as an `Option`. -/
def dictGet (m : List (String × Clip)) (k : String) : Option Clip :=
  match m with
  | [] => none
  | (k1, v1) :: rest => if k1 = k then some v1 else dictGet rest k

/-- Python membership test `k in m`. -/
def dictContains (m : List (String × Clip)) (k : String) : Bool :=
  (dictGet m k).isSome

/-- The state of one `AnimatedCharacter` (pygame rendering surfaces and the
`rect` are out of scope; `x`/`y` and all playback-relevant fields are kept). -/
structure AnimatedCharacter where
  x : Int
  y : Int
  direction_mode : DirectionMode
  animations : List (String × Clip)
  current_animation : Option String
  current_frame : Nat
  animation_timer : Nat
  animation_speed : Nat
  facing_right : Bool
  current_frame_width : Nat
  current_frame_height : Nat
  master_sprite_sheet : Option (Nat × Nat)
  master_frame_width : Nat
  master_frame_height : Nat
  master_columns : Nat
  next_frame_index : Nat
deriving DecidableEq, Repr

/-- `AnimatedCharacter.__init__(x, y, scale, direction_mode)` (the scale
factor only affects rendering and is not part of the modelled state). -/
def initChar (x y : Int) (direction_mode : DirectionMode) : AnimatedCharacter :=
  { x := x
    y := y
    direction_mode := direction_mode
    animations := []
    current_animation := none
    current_frame := 0
    animation_timer := 0
    animation_speed := 10
    facing_right := true
    current_frame_width := 64
    current_frame_height := 64
    master_sprite_sheet := none
    master_frame_width := 64
    master_frame_height := 64
    master_columns := 8
    next_frame_index := 0 }

/-- `load_master_sprite_sheet(sprite_file, frame_width, frame_height,
columns)`; `img` is the outcome of `pygame.image.load(sprite_file)`. -/
def load_master_sprite_sheet (c : AnimatedCharacter)
    (img : Option (Nat × Nat)) (frame_width frame_height columns : Nat) :
    Bool × AnimatedCharacter :=
  match img with
  | none => (false, c)
  | some im =>
      (true, { c with
        master_sprite_sheet := some im
        master_frame_width := frame_width
        master_frame_height := frame_height
        master_columns := columns
        next_frame_index := 0 })

/-- `add_animation_from_master(name, frames, speed, loop)`. -/
def add_animation_from_master (c : AnimatedCharacter) (name : String)
    (frames speed : Nat) (loop : Bool) : Bool × AnimatedCharacter :=
  match c.master_sprite_sheet with
  | none => (false, c)
  | some sheet =>
      let frame_positions := (List.range frames).map (fun i =>
        let current_index := c.next_frame_index + i
        let row := current_index / c.master_columns
        let col := current_index % c.master_columns
        (col * c.master_frame_width, row * c.master_frame_height))
      let clip : Clip :=
        { mode := "master"
          sprite_image := sheet
          frame_width := c.master_frame_width
          frame_height := c.master_frame_height
          frames := frames
          speed := speed
          loop := loop
          finished := false
          frame_positions := frame_positions }
      let c1 := { c with
        animations := dictSet c.animations name clip
        next_frame_index := c.next_frame_index + frames }
      let c2 :=
        if c1.current_animation = none then
          { c1 with
            current_animation := some name
            animation_speed := speed
            current_frame_width := c.master_frame_width
            current_frame_height := c.master_frame_height }
        else c1
      (true, c2)

/-- `add_animation(name, sprite_file, frame_width, frame_height, frames,
speed, loop)`; `img` is the outcome of `pygame.image.load(sprite_file)`
(the `except` branch returns `False` with the state untouched). -/
def add_animation (c : AnimatedCharacter) (name : String)
    (img : Option (Nat × Nat)) (frame_width frame_height frames speed : Nat)
    (loop : Bool) : Bool × AnimatedCharacter :=
  match img with
  | none => (false, c)
  | some sprite_image =>
      let clip : Clip :=
        { mode := "separate"
          sprite_image := sprite_image
          frame_width := frame_width
          frame_height := frame_height
          frames := frames
          speed := speed
          loop := loop
          finished := false
          frame_positions := [] }
      let c1 := { c with animations := dictSet c.animations name clip }
      let c2 :=
        if c1.current_animation = none then
          { c1 with
            current_animation := some name
            animation_speed := speed
            current_frame_width := frame_width
            current_frame_height := frame_height }
        else c1
      (true, c2)

/-- `add_animation_from_range(name, start_frame, end_frame, speed, loop)`. -/
def add_animation_from_range (c : AnimatedCharacter) (name : String)
    (start_frame end_frame : Int) (speed : Nat) (loop : Bool) :
    Bool × AnimatedCharacter :=
  match c.master_sprite_sheet with
  | none => (false, c)
  | some sheet =>
      if start_frame < 1 then (false, c)
      else if end_frame < start_frame then (false, c)
      else
        let sprite_width := sheet.1
        let sprite_height := sheet.2
        let total_columns := sprite_width / c.master_frame_width
        let total_rows := sprite_height / c.master_frame_height
        let total_frames := total_columns * total_rows
        if end_frame > (total_frames : Int) then (false, c)
        else
          let frames_count := (end_frame - start_frame + 1).toNat
          let frame_positions := (List.range frames_count).map (fun i =>
            let frame_index := (start_frame - 1).toNat + i
            let row := frame_index / c.master_columns
            let col := frame_index % c.master_columns
            (col * c.master_frame_width, row * c.master_frame_height))
          let clip : Clip :=
            { mode := "range"
              sprite_image := sheet
              frame_width := c.master_frame_width
              frame_height := c.master_frame_height
              frames := frames_count
              speed := speed
              loop := loop
              finished := false
              frame_positions := frame_positions }
          let c1 := { c with animations := dictSet c.animations name clip }
          let c2 :=
            if c1.current_animation = none then
              { c1 with
                current_animation := some name
                animation_speed := speed
                current_frame_width := c.master_frame_width
                current_frame_height := c.master_frame_height }
            else c1
          (true, c2)

/-- `play_animation(name, reset)`: resolves the directional variant under
`SEPARATE_DIRECTIONS`, then switches/reset the cursor when the clip exists. -/
def play_animation (c : AnimatedCharacter) (name : String)
    (reset : Bool := true) : AnimatedCharacter :=
  let resolved : Option String :=
    if c.direction_mode = DirectionMode.separate_directions then
      let direction_suffix := if c.facing_right then "_right" else "_left"
      let directional_name := name ++ direction_suffix
      if dictContains c.animations directional_name then some directional_name
      else if dictContains c.animations name then some name
      else none
    else some name
  match resolved with
  | none => c
  | some n =>
      match dictGet c.animations n with
      | none => c
      | some animation =>
          if c.current_animation ≠ some n ∨ reset then
            { c with
              current_animation := some n
              current_frame := 0
              animation_timer := 0
              animation_speed := animation.speed
              current_frame_width := animation.frame_width
              current_frame_height := animation.frame_height
              animations := dictSet c.animations n
                { animation with finished := false } }
          else c

/-- `update()`.  `none` models the exceptions the Python code raises: a
`KeyError` when the current clip name is absent from the dict, and the
`IndexError` raised by `_update_image` when the (new) current frame indexes
past `frame_positions` for a `"master"`/`"range"` clip. -/
def update (c : AnimatedCharacter) : Option AnimatedCharacter :=
  match c.current_animation with
  | none => some c
  | some name =>
      match dictGet c.animations name with
      | none => none
      | some animation =>
          let timer := c.animation_timer + 1
          let next :=
            if timer ≥ c.animation_speed then
              if c.current_frame + 1 ≥ animation.frames then
                if animation.loop then
                  { c with animation_timer := 0, current_frame := 0 }
                else
                  { c with
                    animation_timer := 0
                    current_frame := animation.frames - 1
                    animations := dictSet c.animations name
                      { animation with finished := true } }
              else
                { c with animation_timer := 0,
                         current_frame := c.current_frame + 1 }
            else { c with animation_timer := timer }
          if animation.mode = "master" ∨ animation.mode = "range" then
            if next.current_frame < animation.frame_positions.length then
              some next
            else none
          else some next

/-- `k` successive calls to `update()`. -/
def updateN (c : AnimatedCharacter) : Nat → Option AnimatedCharacter
  | 0 => some c
  | k + 1 => (updateN c k).bind update

/-- `move(dx, dy)`. -/
def move (c : AnimatedCharacter) (dx dy : Int) : AnimatedCharacter :=
  let c1 := { c with x := c.x + dx, y := c.y + dy }
  if c1.direction_mode ≠ DirectionMode.no_flip then
    if dx > 0 then { c1 with facing_right := true }
    else if dx < 0 then { c1 with facing_right := false }
    else c1
  else c1

/-- `is_animation_finished()`; `none` models the `KeyError` when the current
clip name is absent from the dict. -/
def is_animation_finished (c : AnimatedCharacter) : Option Bool :=
  match c.current_animation with
  | none => some true
  | some name => (dictGet c.animations name).map Clip.finished

/-! ### Dictionary lemmas -/

theorem dictGet_dictSet_self (m : List (String × Clip)) (k : String) (v : Clip) :
    dictGet (dictSet m k v) k = some v := by
  induction m with
  | nil => simp [dictSet, dictGet]
  | cons hd t ih =>
      obtain ⟨k1, v1⟩ := hd
      by_cases hk : k1 = k <;> simp [dictSet, dictGet, hk, ih]

theorem dictGet_dictSet_ne (m : List (String × Clip)) (k : String) (v : Clip)
    (k2 : String) (h : k2 ≠ k) :
    dictGet (dictSet m k v) k2 = dictGet m k2 := by
  induction m with
  | nil => simp [dictSet, dictGet, Ne.symm h]
  | cons hd t ih =>
      obtain ⟨k1, v1⟩ := hd
      by_cases hk : k1 = k
      · subst hk
        simp [dictSet, dictGet, Ne.symm h]
      · simp [dictSet, dictGet, hk, ih]

theorem dictSet_dictSet (m : List (String × Clip)) (k : String) (v w : Clip) :
    dictSet (dictSet m k v) k w = dictSet m k w := by
  induction m with
  | nil => simp [dictSet]
  | cons hd t ih =>
      obtain ⟨k1, v1⟩ := hd
      by_cases hk : k1 = k <;> simp [dictSet, hk, ih]

/-! ### Range registration (C1, C2) -/

/-- The clip record built on the success path of `add_animation_from_range`
(lines 452–482 of the source), with the position arithmetic beta-reduced. -/
def rangeClip (c : AnimatedCharacter) (s e : Int) (speed : Nat) (lp : Bool)
    (sheet : Nat × Nat) : Clip :=
  { mode := "range"
    sprite_image := sheet
    frame_width := c.master_frame_width
    frame_height := c.master_frame_height
    frames := (e - s + 1).toNat
    speed := speed
    loop := lp
    finished := false
    frame_positions := (List.range (e - s + 1).toNat).map (fun i =>
      ((((s - 1).toNat + i) % c.master_columns) * c.master_frame_width,
       (((s - 1).toNat + i) / c.master_columns) * c.master_frame_height)) }

theorem add_animation_from_range_success_eq
    (c : AnimatedCharacter) (name : String) (s e : Int) (speed : Nat)
    (lp : Bool) (sheet : Nat × Nat)
    (hm : c.master_sprite_sheet = some sheet)
    (h1 : ¬ s < 1) (h2 : ¬ e < s)
    (h3 : ¬ e > ((sheet.1 / c.master_frame_width *
          (sheet.2 / c.master_frame_height) : Nat) : Int)) :
    add_animation_from_range c name s e speed lp =
    (true,
      let c1 := { c with
        animations := dictSet c.animations name (rangeClip c s e speed lp sheet) }
      if c1.current_animation = none then
        { c1 with
          current_animation := some name
          animation_speed := speed
          current_frame_width := c.master_frame_width
          current_frame_height := c.master_frame_height }
      else c1) := by
  simp only [add_animation_from_range, hm, if_neg h1, if_neg h2, if_neg h3]
  rfl

theorem add_animation_from_range_success_animations
    (c : AnimatedCharacter) (name : String) (s e : Int) (speed : Nat)
    (lp : Bool) (sheet : Nat × Nat)
    (hm : c.master_sprite_sheet = some sheet)
    (h1 : ¬ s < 1) (h2 : ¬ e < s)
    (h3 : ¬ e > ((sheet.1 / c.master_frame_width *
          (sheet.2 / c.master_frame_height) : Nat) : Int)) :
    (add_animation_from_range c name s e speed lp).2.animations =
      dictSet c.animations name (rangeClip c s e speed lp sheet) := by
  rw [add_animation_from_range_success_eq c name s e speed lp sheet hm h1 h2 h3]
  dsimp only
  split <;> rfl

/-- C1: a valid `add_animation_from_range(name, s, e)` call (master sheet
set, `1 ≤ s ≤ e ≤ totalFrames`) succeeds and creates a clip with exactly
`e - s + 1` frames whose `i`-th position is
`(col * cellWidth, row * cellHeight)` for `row = (s-1+i) div columns`,
`col = (s-1+i) mod columns`; the cases `i = 0` and `i = e-s` give the grid
positions of the 0-based indices `s-1` and `e-1`. -/
theorem range_clip_valid_geometry
    (c : AnimatedCharacter) (name : String) (s e : Int) (speed : Nat)
    (lp : Bool) (sheet : Nat × Nat)
    (hm : c.master_sprite_sheet = some sheet)
    (hs : 1 ≤ s) (hse : s ≤ e)
    (he : e ≤ ((sheet.1 / c.master_frame_width *
          (sheet.2 / c.master_frame_height) : Nat) : Int)) :
    ∃ clip : Clip,
      (add_animation_from_range c name s e speed lp).1 = true ∧
      dictGet (add_animation_from_range c name s e speed lp).2.animations name
        = some clip ∧
      clip.frames = (e - s + 1).toNat ∧
      clip.frame_positions.length = (e - s + 1).toNat ∧
      ∀ i : Nat, i < (e - s + 1).toNat →
        clip.frame_positions[i]? =
          some ((((s - 1).toNat + i) % c.master_columns) * c.master_frame_width,
                (((s - 1).toNat + i) / c.master_columns) * c.master_frame_height) := by
  have h1 : ¬ s < 1 := by omega
  have h2 : ¬ e < s := by omega
  have h3 : ¬ e > ((sheet.1 / c.master_frame_width *
      (sheet.2 / c.master_frame_height) : Nat) : Int) := by omega
  refine ⟨rangeClip c s e speed lp sheet, ?_, ?_, rfl, by simp [rangeClip], ?_⟩
  · rw [add_animation_from_range_success_eq c name s e speed lp sheet hm h1 h2 h3]
  · rw [add_animation_from_range_success_animations c name s e speed lp sheet hm h1 h2 h3,
      dictGet_dictSet_self]
  · intro i hi
    show ((List.range (e - s + 1).toNat).map _)[i]? = _
    rw [List.getElem?_map, List.getElem?_range hi]
    rfl

/-- A character with a 512×512 master sheet of 64×64 cells, 8 columns. -/
def charSheet : AnimatedCharacter :=
  (load_master_sprite_sheet (initChar 0 0 DirectionMode.auto_flip)
    (some (512, 512)) 64 64 8).2

/-- Witness for C1: range 33–40 on the 512×512 sheet (64 frames). -/
theorem range_clip_valid_geometry_witness :
    ∃ clip : Clip,
      (add_animation_from_range charSheet "walk" 33 40 12 true).1 = true ∧
      dictGet (add_animation_from_range charSheet "walk" 33 40 12 true).2.animations "walk"
        = some clip ∧
      clip.frames = ((40 : Int) - 33 + 1).toNat ∧
      clip.frame_positions.length = ((40 : Int) - 33 + 1).toNat ∧
      ∀ i : Nat, i < ((40 : Int) - 33 + 1).toNat →
        clip.frame_positions[i]? =
          some (((((33 : Int) - 1).toNat + i) % charSheet.master_columns) *
                  charSheet.master_frame_width,
                ((((33 : Int) - 1).toNat + i) / charSheet.master_columns) *
                  charSheet.master_frame_height) :=
  range_clip_valid_geometry charSheet "walk" 33 40 12 true (512, 512)
    rfl (by decide) (by decide) (by decide)

/-- C2: with a master sheet set (and positive cell sizes, as Python division
requires), any call with `start < 1`, `end < start`, or
`end > totalFrames = (sheetWidth div cellWidth) * (sheetHeight div cellHeight)`
returns `False` and leaves the whole character state — clip map and playback
state included — exactly unchanged. -/
theorem range_clip_invalid_rejected
    (c : AnimatedCharacter) (name : String) (s e : Int) (speed : Nat)
    (lp : Bool) (sheet : Nat × Nat)
    (hm : c.master_sprite_sheet = some sheet)
    (hw : 0 < c.master_frame_width) (hh : 0 < c.master_frame_height)
    (hbad : s < 1 ∨ e < s ∨
      e > ((sheet.1 / c.master_frame_width *
            (sheet.2 / c.master_frame_height) : Nat) : Int)) :
    add_animation_from_range c name s e speed lp = (false, c) := by
  by_cases h1 : s < 1
  · simp only [add_animation_from_range, hm, if_pos h1]
  · by_cases h2 : e < s
    · simp only [add_animation_from_range, hm, if_neg h1, if_pos h2]
    · have h3 : e > ((sheet.1 / c.master_frame_width *
          (sheet.2 / c.master_frame_height) : Nat) : Int) := by tauto
      simp only [add_animation_from_range, hm, if_neg h1, if_neg h2, if_pos h3]

/-- Witness for C2: range 5–3 (end < start) on the 512×512 sheet. -/
theorem range_clip_invalid_rejected_witness :
    add_animation_from_range charSheet "x" 5 3 10 true = (false, charSheet) :=
  range_clip_invalid_rejected charSheet "x" 5 3 10 true (512, 512)
    rfl (by decide) (by decide) (Or.inr (Or.inl (by decide)))

/-! ### Playback arithmetic (C3, C4) -/

theorem succ_div_mod (k s : Nat) (hs : 0 < s) :
    (k % s + 1 < s ∧ (k + 1) % s = k % s + 1 ∧ (k + 1) / s = k / s) ∨
    (k % s + 1 = s ∧ (k + 1) % s = 0 ∧ (k + 1) / s = k / s + 1) := by
  have hlt : k % s < s := Nat.mod_lt _ hs
  have hk : s * (k / s) + (k % s + 1) = k + 1 := by
    have := Nat.div_add_mod k s
    omega
  by_cases h : k % s + 1 < s
  · left
    refine ⟨h, ?_, ?_⟩
    · rw [← hk, Nat.mul_add_mod, Nat.mod_eq_of_lt h]
    · rw [← hk, Nat.mul_add_div hs, Nat.div_eq_of_lt h, Nat.add_zero]
  · right
    have he : k % s + 1 = s := by omega
    refine ⟨he, ?_, ?_⟩
    · rw [← hk, Nat.mul_add_mod, he, Nat.mod_self]
    · rw [← hk, Nat.mul_add_div hs, he, Nat.div_self hs]

/-- Proof-side abbreviation: the state `c` with its cursor set to frame `f`,
tick `t` (all other fields untouched). -/
def setCursor (c : AnimatedCharacter) (f t : Nat) : AnimatedCharacter :=
  { c with current_frame := f, animation_timer := t }

theorem setCursor_eq_self (c : AnimatedCharacter)
    (hf : c.current_frame = 0) (ht : c.animation_timer = 0) :
    setCursor c 0 0 = c := by
  cases c
  simp_all [setCursor]

theorem mode_check_some (anim : Clip) (next : AnimatedCharacter)
    (hlen : anim.mode = "separate" ∨ anim.frame_positions.length = anim.frames)
    (hf : next.current_frame < anim.frames) :
    (if anim.mode = "master" ∨ anim.mode = "range" then
       (if next.current_frame < anim.frame_positions.length then some next
        else none)
     else some next) = some next := by
  rcases hlen with hm | hl
  · rw [if_neg]
    rw [hm]
    decide
  · by_cases hp : anim.mode = "master" ∨ anim.mode = "range"
    · rw [if_pos hp, if_pos (by rw [hl]; exact hf)]
    · rw [if_neg hp]

theorem update_step (c : AnimatedCharacter) (a : String) (anim : Clip)
    (hca : c.current_animation = some a)
    (hg : dictGet c.animations a = some anim) :
    update c =
      (let next :=
        if c.animation_timer + 1 ≥ c.animation_speed then
          (if c.current_frame + 1 ≥ anim.frames then
            (if anim.loop then
              { c with animation_timer := 0, current_frame := 0 }
             else
              { c with animation_timer := 0, current_frame := anim.frames - 1,
                       animations := dictSet c.animations a
                         { anim with finished := true } })
           else
            { c with animation_timer := 0, current_frame := c.current_frame + 1 })
        else { c with animation_timer := c.animation_timer + 1 }
      if anim.mode = "master" ∨ anim.mode = "range" then
        (if next.current_frame < anim.frame_positions.length then some next
         else none)
      else some next) := by
  unfold update
  rw [hca]
  simp only [hg]

/-- Closed form of `k` successive `update()` calls on a looping clip with
`n` frames at speed `s`, started at frame 0, tick 0: the cursor is
`(k / s mod n, k mod s)` and nothing else changes. -/
theorem updateN_loop_closed
    (c : AnimatedCharacter) (a : String) (anim : Clip) (n s : Nat)
    (hca : c.current_animation = some a)
    (hg : dictGet c.animations a = some anim)
    (hloop : anim.loop = true)
    (hn : anim.frames = n) (hn1 : 0 < n)
    (hsp : c.animation_speed = s) (hs1 : 0 < s)
    (hf0 : c.current_frame = 0) (ht0 : c.animation_timer = 0)
    (hlen : anim.mode = "separate" ∨ anim.frame_positions.length = anim.frames) :
    ∀ k : Nat, updateN c k = some (setCursor c (k / s % n) (k % s)) := by
  intro k
  induction k with
  | zero =>
      show some c = _
      rw [Nat.zero_div, Nat.zero_mod, Nat.zero_mod,
        setCursor_eq_self c hf0 ht0]
  | succ k ih =>
      have hbind : updateN c (k + 1) = (updateN c k).bind update := rfl
      rw [hbind, ih, Option.some_bind]
      have hca2 : (setCursor c (k / s % n) (k % s)).current_animation = some a := hca
      have hg2 : dictGet (setCursor c (k / s % n) (k % s)).animations a = some anim := hg
      rw [update_step _ a anim hca2 hg2]
      have hfn : k / s % n < n := Nat.mod_lt _ hn1
      have hts : k % s < s := Nat.mod_lt _ hs1
      rcases succ_div_mod k s hs1 with ⟨hlt2, hmod, hdiv⟩ | ⟨heq2, hmod, hdiv⟩
      · -- tick only: k % s + 1 < s
        rw [hmod, hdiv]
        show (if anim.mode = "master" ∨ anim.mode = "range" then _ else _) = _
        rw [if_neg (show ¬ (setCursor c (k / s % n) (k % s)).animation_timer + 1 ≥
              (setCursor c (k / s % n) (k % s)).animation_speed by
            show ¬ k % s + 1 ≥ c.animation_speed
            omega)]
        exact mode_check_some anim _ hlen (by rw [hn]; exact hfn)
      · -- frame advance: k % s + 1 = s
        rw [hmod, hdiv]
        rw [if_pos (show (setCursor c (k / s % n) (k % s)).animation_timer + 1 ≥
              (setCursor c (k / s % n) (k % s)).animation_speed by
            show k % s + 1 ≥ c.animation_speed
            omega)]
        by_cases hwrap : k / s % n + 1 ≥ n
        · have hw : k / s % n + 1 = n := by omega
          rw [if_pos (show (setCursor c (k / s % n) (k % s)).current_frame + 1 ≥
                anim.frames by show k / s % n + 1 ≥ anim.frames; omega)]
          rw [if_pos hloop]
          have hidx : (k / s + 1) % n = 0 := by
            rw [← Nat.mod_add_mod, hw, Nat.mod_self]
          rw [hidx]
          exact mode_check_some anim _ hlen (by rw [hn]; exact hn1)
        · rw [if_neg (show ¬ (setCursor c (k / s % n) (k % s)).current_frame + 1 ≥
                anim.frames by show ¬ k / s % n + 1 ≥ anim.frames; omega)]
          have hidx : (k / s + 1) % n = k / s % n + 1 := by
            rw [← Nat.mod_add_mod, Nat.mod_eq_of_lt (by omega)]
          rw [hidx]
          exact mode_check_some anim _ hlen
            (by show k / s % n + 1 < anim.frames; omega)

/-- C3: on a looping clip with `n ≥ 1` frames at speed `s ≥ 1` (the
character's cached speed agreeing with the clip, as `play` guarantees),
starting at frame 0 / tick 0, every prefix of `s * n` calls to `update()`
keeps `finished == false`, and after exactly `s * n` calls the cursor is
back at frame 0, tick 0. -/
theorem loop_returns_to_start
    (c : AnimatedCharacter) (a : String) (anim : Clip) (n s : Nat)
    (hca : c.current_animation = some a)
    (hg : dictGet c.animations a = some anim)
    (hloop : anim.loop = true)
    (hfin : anim.finished = false)
    (hn : anim.frames = n) (hn1 : 1 ≤ n)
    (hsp : c.animation_speed = s) (hsc : anim.speed = s) (hs1 : 1 ≤ s)
    (hf0 : c.current_frame = 0) (ht0 : c.animation_timer = 0)
    (hlen : anim.mode = "separate" ∨ anim.frame_positions.length = anim.frames)
    (k : Nat) (hk : k ≤ s * n) :
    ∃ c2 : AnimatedCharacter, updateN c k = some c2 ∧
      is_animation_finished c2 = some false ∧
      (k = s * n → c2.current_frame = 0 ∧ c2.animation_timer = 0) := by
  refine ⟨setCursor c (k / s % n) (k % s),
    updateN_loop_closed c a anim n s hca hg hloop hn hn1 hsp hs1 hf0 ht0 hlen k,
    ?_, ?_⟩
  · simp [is_animation_finished, setCursor, hca, hg, hfin]
  · intro hk2
    subst hk2
    constructor
    · show (s * n) / s % n = 0
      rw [Nat.mul_div_cancel_left n hs1, Nat.mod_self]
    · show (s * n) % s = 0
      exact Nat.mul_mod_right s n

/-- `charSheet` after registering a looping 4-frame clip at speed 3. -/
def charWalk : AnimatedCharacter :=
  (add_animation_from_master charSheet "walk" 4 3 true).2

/-- The clip stored for `"walk"` in `charWalk`. -/
def walkClip : Clip :=
  { mode := "master"
    sprite_image := (512, 512)
    frame_width := 64
    frame_height := 64
    frames := 4
    speed := 3
    loop := true
    finished := false
    frame_positions := [(0, 0), (64, 0), (128, 0), (192, 0)] }

/-- Witness for C3: 12 = 3·4 updates return the cursor to (0, 0). -/
theorem loop_returns_to_start_witness :
    ∃ c2 : AnimatedCharacter, updateN charWalk 12 = some c2 ∧
      is_animation_finished c2 = some false ∧
      (12 = 3 * 4 → c2.current_frame = 0 ∧ c2.animation_timer = 0) :=
  loop_returns_to_start charWalk "walk" walkClip 4 3 rfl rfl rfl rfl rfl
    (by decide) rfl rfl (by decide) rfl rfl (Or.inr rfl) 12 (by decide)

/-- Closed form of `k` successive `update()` calls on a non-looping clip
with `n` frames at speed `s`, started at frame 0, tick 0: before `s * n`
calls the cursor is `(k / s, k mod s)`; from `s * n` calls on the frame is
clamped at `n - 1` and the clip is marked finished. -/
theorem updateN_noloop_closed
    (c : AnimatedCharacter) (a : String) (anim : Clip) (n s : Nat)
    (hca : c.current_animation = some a)
    (hg : dictGet c.animations a = some anim)
    (hloop : anim.loop = false)
    (hn : anim.frames = n) (hn1 : 0 < n)
    (hsp : c.animation_speed = s) (hs1 : 0 < s)
    (hf0 : c.current_frame = 0) (ht0 : c.animation_timer = 0)
    (hlen : anim.mode = "separate" ∨ anim.frame_positions.length = anim.frames) :
    ∀ k : Nat, updateN c k =
      some (if k < s * n then setCursor c (k / s) (k % s)
            else
              { setCursor c (n - 1) (k % s) with
                animations := dictSet c.animations a
                  { anim with finished := true } }) := by
  intro k
  induction k with
  | zero =>
      rw [if_pos (Nat.mul_pos hs1 hn1)]
      show some c = _
      rw [Nat.zero_div, Nat.zero_mod, setCursor_eq_self c hf0 ht0]
  | succ k ih =>
      have hbind : updateN c (k + 1) = (updateN c k).bind update := rfl
      rw [hbind, ih, Option.some_bind]
      by_cases hk : k < s * n
      · rw [if_pos hk]
        have hca2 : (setCursor c (k / s) (k % s)).current_animation = some a := hca
        have hg2 : dictGet (setCursor c (k / s) (k % s)).animations a = some anim := hg
        rw [update_step _ a anim hca2 hg2]
        have hflt : k / s < n := by
          rw [Nat.div_lt_iff_lt_mul hs1, Nat.mul_comm]
          omega
        rcases succ_div_mod k s hs1 with ⟨hlt2, hmod, hdiv⟩ | ⟨heq2, hmod, hdiv⟩
        · -- tick only; k + 1 = s * n is impossible here since (s*n) % s = 0
          have hk1 : k + 1 < s * n := by
            rcases Nat.lt_or_ge (k + 1) (s * n) with h | h
            · exact h
            · have hksn : k + 1 = s * n := by omega
              have h0 : (k + 1) % s = 0 := by
                rw [hksn]
                exact Nat.mul_mod_right s n
              omega
          rw [if_pos hk1, hmod, hdiv]
          rw [if_neg (show ¬ (setCursor c (k / s) (k % s)).animation_timer + 1 ≥
                (setCursor c (k / s) (k % s)).animation_speed by
              show ¬ k % s + 1 ≥ c.animation_speed
              omega)]
          exact mode_check_some anim _ hlen
            (show k / s < anim.frames by omega)
        · rw [if_pos (show (setCursor c (k / s) (k % s)).animation_timer + 1 ≥
                (setCursor c (k / s) (k % s)).animation_speed by
              show k % s + 1 ≥ c.animation_speed
              omega)]
          by_cases hk1 : k + 1 < s * n
          · -- frame advance without clamping
            have hflt1 : k / s + 1 < n := by
              rw [← hdiv, Nat.div_lt_iff_lt_mul hs1, Nat.mul_comm]
              omega
            rw [if_pos hk1, hmod, hdiv]
            rw [if_neg (show ¬ (setCursor c (k / s) (k % s)).current_frame + 1 ≥
                  anim.frames by
                show ¬ k / s + 1 ≥ anim.frames
                omega)]
            exact mode_check_some anim _ hlen
              (show k / s + 1 < anim.frames by omega)
          · -- k + 1 = s * n: the frame is clamped and finished is set
            have hksn : k + 1 = s * n := by omega
            have hdn : k / s + 1 = n := by
              rw [← hdiv, hksn, Nat.mul_div_cancel_left n hs1]
            rw [if_neg hk1, hmod]
            rw [if_pos (show (setCursor c (k / s) (k % s)).current_frame + 1 ≥
                  anim.frames by
                show k / s + 1 ≥ anim.frames
                omega)]
            rw [if_neg (show ¬ anim.loop = true by rw [hloop]; exact Bool.false_ne_true)]
            rw [hn]
            exact mode_check_some anim _ hlen
              (show n - 1 < anim.frames by omega)
      · -- already finished: the frame stays clamped at n - 1
        rw [if_neg hk]
        have hk1 : ¬ k + 1 < s * n := by omega
        set c2 : AnimatedCharacter := { setCursor c (n - 1) (k % s) with
          animations := dictSet c.animations a
            { anim with finished := true } } with hc2
        have hca2 : c2.current_animation = some a := hca
        have hg2 : dictGet c2.animations a = some { anim with finished := true } :=
          dictGet_dictSet_self c.animations a { anim with finished := true }
        rw [update_step c2 a { anim with finished := true } hca2 hg2]
        have htimer : c2.animation_timer = k % s := rfl
        have hspeed : c2.animation_speed = s := hsp
        have hframe : c2.current_frame = n - 1 := rfl
        have hanims : c2.animations = dictSet c.animations a
            { anim with finished := true } := rfl
        rcases succ_div_mod k s hs1 with ⟨hlt2, hmod, hdiv⟩ | ⟨heq2, hmod, hdiv⟩
        · -- tick only
          rw [if_neg hk1, hmod]
          rw [if_neg (show ¬ c2.animation_timer + 1 ≥ c2.animation_speed by
              rw [htimer, hspeed]
              omega)]
          refine Eq.trans (mode_check_some { anim with finished := true } _ hlen
            (show c2.current_frame < ({ anim with finished := true } : Clip).frames by
              show c2.current_frame < anim.frames
              rw [hframe]
              omega)) ?_
          rfl
        · -- the clamp re-fires: frame n-1+1 is clamped back to n-1
          rw [if_neg hk1, hmod]
          rw [if_pos (show c2.animation_timer + 1 ≥ c2.animation_speed by
              rw [htimer, hspeed]
              omega)]
          rw [if_pos (show c2.current_frame + 1 ≥
                ({ anim with finished := true } : Clip).frames by
              show c2.current_frame + 1 ≥ anim.frames
              rw [hframe]
              omega)]
          rw [if_neg (show ¬ ({ anim with finished := true } : Clip).loop = true by
              show ¬ anim.loop = true
              rw [hloop]
              exact Bool.false_ne_true)]
          refine Eq.trans (mode_check_some { anim with finished := true } _ hlen
            (show ({ anim with finished := true } : Clip).frames - 1 <
                ({ anim with finished := true } : Clip).frames by
              show anim.frames - 1 < anim.frames
              omega)) ?_
          rw [hc2]
          rw [dictSet_dictSet]
          rw [hn]
          rfl

/-- C4: on a non-looping clip with `n ≥ 1` frames at speed `s ≥ 1`, started
at frame 0 / tick 0, after `s * n` calls to `update()` the frame index is
clamped at `n - 1` with `finished == true`, and every further call (any
`k ≥ s * n` total calls) still shows frame index `n - 1`. -/
theorem noloop_clamps_and_stays
    (c : AnimatedCharacter) (a : String) (anim : Clip) (n s : Nat)
    (hca : c.current_animation = some a)
    (hg : dictGet c.animations a = some anim)
    (hloop : anim.loop = false)
    (hn : anim.frames = n) (hn1 : 1 ≤ n)
    (hsp : c.animation_speed = s) (hsc : anim.speed = s) (hs1 : 1 ≤ s)
    (hf0 : c.current_frame = 0) (ht0 : c.animation_timer = 0)
    (hlen : anim.mode = "separate" ∨ anim.frame_positions.length = anim.frames) :
    (∃ c2 : AnimatedCharacter, updateN c (s * n) = some c2 ∧
      c2.current_frame = n - 1 ∧ is_animation_finished c2 = some true) ∧
    (∀ k : Nat, s * n ≤ k → ∃ c2 : AnimatedCharacter,
      updateN c k = some c2 ∧ c2.current_frame = n - 1) := by
  have hclosed := updateN_noloop_closed c a anim n s hca hg hloop hn hn1 hsp
    hs1 hf0 ht0 hlen
  constructor
  · refine ⟨_, hclosed (s * n), ?_, ?_⟩
    · rw [if_neg (show ¬ s * n < s * n by omega)]
      rfl
    · rw [if_neg (show ¬ s * n < s * n by omega)]
      simp [is_animation_finished, setCursor, hca, dictGet_dictSet_self]
  · intro k hksn
    refine ⟨_, hclosed k, ?_⟩
    rw [if_neg (show ¬ k < s * n by omega)]
    rfl

/-- `charSheet` after registering a non-looping 2-frame clip at speed 2. -/
def charJump : AnimatedCharacter :=
  (add_animation_from_master charSheet "jump" 2 2 false).2

/-- The clip stored for `"jump"` in `charJump`. -/
def jumpClip : Clip :=
  { mode := "master"
    sprite_image := (512, 512)
    frame_width := 64
    frame_height := 64
    frames := 2
    speed := 2
    loop := false
    finished := false
    frame_positions := [(0, 0), (64, 0)] }

/-- Witness for C4: 4 = 2·2 updates clamp the frame at 1 and finish. -/
theorem noloop_clamps_and_stays_witness :
    ((∃ c2 : AnimatedCharacter, updateN charJump (2 * 2) = some c2 ∧
      c2.current_frame = 2 - 1 ∧ is_animation_finished c2 = some true) ∧
    (∀ k : Nat, 2 * 2 ≤ k → ∃ c2 : AnimatedCharacter,
      updateN charJump k = some c2 ∧ c2.current_frame = 2 - 1)) :=
  noloop_clamps_and_stays charJump "jump" jumpClip 2 2 rfl rfl rfl rfl
    (by decide) rfl rfl (by decide) rfl rfl (Or.inr rfl)

/-! ### Direction handling (C6, C7) -/

/-- C6: under `SEPARATE_DIRECTIONS`, `play_animation(name)` selects the
clip `name + "_right"` / `name + "_left"` per current facing when it is
registered; otherwise falls back to the bare `name` when that is
registered; and when neither exists the call leaves the whole character
state unchanged. -/
theorem play_separate_directions_resolution
    (c : AnimatedCharacter) (name : String)
    (h : c.direction_mode = DirectionMode.separate_directions) :
    (dictContains c.animations
        (name ++ (if c.facing_right then "_right" else "_left")) = true →
      (play_animation c name).current_animation =
        some (name ++ (if c.facing_right then "_right" else "_left"))) ∧
    (dictContains c.animations
        (name ++ (if c.facing_right then "_right" else "_left")) = false →
      dictContains c.animations name = true →
      (play_animation c name).current_animation = some name) ∧
    (dictContains c.animations
        (name ++ (if c.facing_right then "_right" else "_left")) = false →
      dictContains c.animations name = false →
      play_animation c name = c) := by
  refine ⟨?_, ?_, ?_⟩
  · intro hd
    obtain ⟨clip, hclip⟩ := Option.isSome_iff_exists.mp hd
    simp [play_animation, dictContains, h, hd, hclip]
  · intro hd hb
    obtain ⟨clip, hclip⟩ := Option.isSome_iff_exists.mp hb
    simp only [dictContains] at hd hb
    simp [play_animation, dictContains, h, hd, hb, hclip]
  · intro hd hb
    simp only [dictContains] at hd hb
    simp [play_animation, dictContains, h, hd, hb]

/-- A `SEPARATE_DIRECTIONS` character with clips `walk_right`, `walk_left`
and `idle` (all from successfully loaded separate sheets). -/
def charSD : AnimatedCharacter :=
  (add_animation
    ((add_animation
      ((add_animation (initChar 0 0 DirectionMode.separate_directions)
        "walk_right" (some (256, 64)) 64 64 4 8 true).2)
      "walk_left" (some (256, 64)) 64 64 4 8 true).2)
    "idle" (some (256, 64)) 64 64 4 12 true).2

/-- Witness for C6: directional hit, bare-name fallback, and unknown-name
no-op, on `charSD` (facing right). -/
theorem play_separate_directions_resolution_witness :
    ((play_animation charSD "walk").current_animation =
      some ("walk" ++ (if charSD.facing_right then "_right" else "_left"))) ∧
    (play_animation charSD "idle").current_animation = some "idle" ∧
    play_animation charSD "swim" = charSD :=
  ⟨(play_separate_directions_resolution charSD "walk" rfl).1 (by decide),
   (play_separate_directions_resolution charSD "idle" rfl).2.1
     (by decide) (by decide),
   (play_separate_directions_resolution charSD "swim" rfl).2.2
     (by decide) (by decide)⟩

/-- C7: `move(dx, dy)` sets facing right for `dx > 0`, left for `dx < 0`,
keeps it for `dx = 0` — unless the mode is `NO_FLIP`, in which case facing
never changes. -/
theorem move_facing_rule (c : AnimatedCharacter) (dx dy : Int) :
    (c.direction_mode ≠ DirectionMode.no_flip →
      (move c dx dy).facing_right =
        (if dx > 0 then true else if dx < 0 then false else c.facing_right)) ∧
    (c.direction_mode = DirectionMode.no_flip →
      (move c dx dy).facing_right = c.facing_right) := by
  refine ⟨fun h => ?_, fun h => ?_⟩
  · rcases lt_trichotomy dx 0 with h1 | h1 | h1
    · simp [move, h, h1, show ¬ dx > 0 by omega]
    · subst h1
      simp [move, h]
    · simp [move, h, h1]
  · simp [move, h]

/-- Witness for C7: `move(-3, 7)` flips facing to left under `AUTO_FLIP`
and leaves it alone under `NO_FLIP`. -/
theorem move_facing_rule_witness :
    ((move (initChar 0 0 DirectionMode.auto_flip) (-3) 7).facing_right =
      (if (-3 : Int) > 0 then true else if (-3 : Int) < 0 then false
       else (initChar 0 0 DirectionMode.auto_flip).facing_right)) ∧
    (move (initChar 0 0 DirectionMode.no_flip) (-3) 7).facing_right =
      (initChar 0 0 DirectionMode.no_flip).facing_right :=
  ⟨(move_facing_rule (initChar 0 0 DirectionMode.auto_flip) (-3) 7).1
     (by decide),
   (move_facing_rule (initChar 0 0 DirectionMode.no_flip) (-3) 7).2 rfl⟩

/-! ### Sequential master registration (C8) -/

/-- The clip record built on the success path of `add_animation_from_master`
(lines 123–148 of the source), with the position arithmetic beta-reduced. -/
def masterClip (c : AnimatedCharacter) (frames speed : Nat) (lp : Bool)
    (sheet : Nat × Nat) : Clip :=
  { mode := "master"
    sprite_image := sheet
    frame_width := c.master_frame_width
    frame_height := c.master_frame_height
    frames := frames
    speed := speed
    loop := lp
    finished := false
    frame_positions := (List.range frames).map (fun i =>
      (((c.next_frame_index + i) % c.master_columns) * c.master_frame_width,
       ((c.next_frame_index + i) / c.master_columns) * c.master_frame_height)) }

theorem add_animation_from_master_success_eq
    (c : AnimatedCharacter) (name : String) (frames speed : Nat) (lp : Bool)
    (sheet : Nat × Nat) (hm : c.master_sprite_sheet = some sheet) :
    add_animation_from_master c name frames speed lp =
    (true,
      let c1 := { c with
        animations := dictSet c.animations name (masterClip c frames speed lp sheet)
        next_frame_index := c.next_frame_index + frames }
      if c1.current_animation = none then
        { c1 with
          current_animation := some name
          animation_speed := speed
          current_frame_width := c.master_frame_width
          current_frame_height := c.master_frame_height }
      else c1) := by
  simp only [add_animation_from_master, hm]
  rfl

theorem add_animation_from_master_success_animations
    (c : AnimatedCharacter) (name : String) (frames speed : Nat) (lp : Bool)
    (sheet : Nat × Nat) (hm : c.master_sprite_sheet = some sheet) :
    (add_animation_from_master c name frames speed lp).2.animations =
      dictSet c.animations name (masterClip c frames speed lp sheet) := by
  rw [add_animation_from_master_success_eq c name frames speed lp sheet hm]
  dsimp only
  split <;> rfl

theorem add_animation_from_master_success_cursor
    (c : AnimatedCharacter) (name : String) (frames speed : Nat) (lp : Bool)
    (sheet : Nat × Nat) (hm : c.master_sprite_sheet = some sheet) :
    (add_animation_from_master c name frames speed lp).2.next_frame_index =
      c.next_frame_index + frames := by
  rw [add_animation_from_master_success_eq c name frames speed lp sheet hm]
  dsimp only
  split <;> rfl

/-- C8: `add_animation_from_master(name, N)` fails with the state unchanged
when no master sheet is set; with a master sheet it succeeds for every `N`
(no capacity bound is checked: no hypothesis on `N` is needed), places the
`i`-th frame at grid index `cursor + i`, and advances the shared cursor
`next_frame_index` by `N`. -/
theorem master_clip_sequential
    (c : AnimatedCharacter) (name : String) (frames speed : Nat) (lp : Bool) :
    (c.master_sprite_sheet = none →
      add_animation_from_master c name frames speed lp = (false, c)) ∧
    (∀ sheet : Nat × Nat, c.master_sprite_sheet = some sheet →
      (add_animation_from_master c name frames speed lp).1 = true ∧
      (add_animation_from_master c name frames speed lp).2.next_frame_index =
        c.next_frame_index + frames ∧
      ∃ clip : Clip,
        dictGet (add_animation_from_master c name frames speed lp).2.animations
          name = some clip ∧
        clip.frames = frames ∧
        clip.frame_positions.length = frames ∧
        ∀ i : Nat, i < frames →
          clip.frame_positions[i]? =
            some (((c.next_frame_index + i) % c.master_columns) *
                    c.master_frame_width,
                  ((c.next_frame_index + i) / c.master_columns) *
                    c.master_frame_height)) := by
  constructor
  · intro hm
    simp only [add_animation_from_master, hm]
  · intro sheet hm
    refine ⟨?_, add_animation_from_master_success_cursor c name frames speed lp
      sheet hm, masterClip c frames speed lp sheet, ?_, rfl,
      by simp [masterClip], ?_⟩
    · rw [add_animation_from_master_success_eq c name frames speed lp sheet hm]
    · rw [add_animation_from_master_success_animations c name frames speed lp
        sheet hm, dictGet_dictSet_self]
    · intro i hi
      show ((List.range frames).map _)[i]? = _
      rw [List.getElem?_map, List.getElem?_range hi]
      rfl

/-- Witness for C8: registering 100 frames on the 64-frame `charSheet`
still succeeds (no capacity check) and moves the cursor to 100. -/
theorem master_clip_sequential_witness :
    (add_animation_from_master charSheet "big" 100 5 true).1 = true ∧
    (add_animation_from_master charSheet "big" 100 5 true).2.next_frame_index =
      charSheet.next_frame_index + 100 ∧
    ∃ clip : Clip,
      dictGet (add_animation_from_master charSheet "big" 100 5 true).2.animations
        "big" = some clip ∧
      clip.frames = 100 ∧
      clip.frame_positions.length = 100 ∧
      ∀ i : Nat, i < 100 →
        clip.frame_positions[i]? =
          some (((charSheet.next_frame_index + i) % charSheet.master_columns) *
                  charSheet.master_frame_width,
                ((charSheet.next_frame_index + i) / charSheet.master_columns) *
                  charSheet.master_frame_height) :=
  (master_clip_sequential charSheet "big" 100 5 true).2 (512, 512) rfl

/-! ### Separate-sheet registration helper, selection on registration (C9) -/

/-- The clip record built on the success path of `add_animation`
(lines 174–187 of the source). -/
def sepClip (img : Nat × Nat) (frame_width frame_height frames speed : Nat)
    (lp : Bool) : Clip :=
  { mode := "separate"
    sprite_image := img
    frame_width := frame_width
    frame_height := frame_height
    frames := frames
    speed := speed
    loop := lp
    finished := false
    frame_positions := [] }

theorem add_animation_success_eq
    (c : AnimatedCharacter) (name : String) (img : Nat × Nat)
    (fw fh frames speed : Nat) (lp : Bool) :
    add_animation c name (some img) fw fh frames speed lp =
    (true,
      let c1 := { c with
        animations := dictSet c.animations name (sepClip img fw fh frames speed lp) }
      if c1.current_animation = none then
        { c1 with
          current_animation := some name
          animation_speed := speed
          current_frame_width := fw
          current_frame_height := fh }
      else c1) := rfl

/-- C9 counterexample: on a fresh character with a master sheet, a single
registration call — with no `play` — already selects the new clip as the
current animation, contradicting the claim that registration by itself
never selects a clip. -/
theorem registration_selects_clip_counterexample :
    charSheet.current_animation = none ∧
    (add_animation_from_master charSheet "idle" 4 15 true).2.current_animation
      = some "idle" :=
  ⟨rfl, rfl⟩

/-- C9 amended: a newly constructed character has no clip selected and
`update()` is a no-op on it; however the FIRST successful registration —
on any of the three paths `add_animation_from_master`, `add_animation`,
`add_animation_from_range` — automatically selects the registered clip as
current, while any registration performed when a clip is already selected
leaves the selection unchanged. -/
theorem idle_until_selection (x y : Int) (dm : DirectionMode) :
    (initChar x y dm).current_animation = none ∧
    update (initChar x y dm) = some (initChar x y dm) ∧
    (∀ (c : AnimatedCharacter) (name : String) (frames speed : Nat)
       (lp : Bool) (sheet : Nat × Nat),
      c.current_animation = none → c.master_sprite_sheet = some sheet →
      (add_animation_from_master c name frames speed lp).2.current_animation
        = some name) ∧
    (∀ (c : AnimatedCharacter) (name : String) (img : Nat × Nat)
       (fw fh fr sp : Nat) (lp : Bool),
      c.current_animation = none →
      (add_animation c name (some img) fw fh fr sp lp).2.current_animation
        = some name) ∧
    (∀ (c : AnimatedCharacter) (name : String) (s e : Int) (sp : Nat)
       (lp : Bool) (sheet : Nat × Nat),
      c.current_animation = none → c.master_sprite_sheet = some sheet →
      1 ≤ s → s ≤ e →
      e ≤ ((sheet.1 / c.master_frame_width *
            (sheet.2 / c.master_frame_height) : Nat) : Int) →
      (add_animation_from_range c name s e sp lp).2.current_animation
        = some name) ∧
    (∀ (c : AnimatedCharacter) (name a : String) (frames speed : Nat)
       (lp : Bool),
      c.current_animation = some a →
      (add_animation_from_master c name frames speed lp).2.current_animation
        = some a) ∧
    (∀ (c : AnimatedCharacter) (name a : String) (img : Option (Nat × Nat))
       (fw fh fr sp : Nat) (lp : Bool),
      c.current_animation = some a →
      (add_animation c name img fw fh fr sp lp).2.current_animation
        = some a) ∧
    (∀ (c : AnimatedCharacter) (name a : String) (s e : Int) (sp : Nat)
       (lp : Bool),
      c.current_animation = some a →
      (add_animation_from_range c name s e sp lp).2.current_animation
        = some a) := by
  refine ⟨rfl, rfl, ?_, ?_, ?_, ?_, ?_, ?_⟩
  · intro c name frames speed lp sheet hc hm
    rw [add_animation_from_master_success_eq c name frames speed lp sheet hm]
    dsimp only
    split
    · rfl
    · rename_i hne
      exact absurd hc hne
  · intro c name img fw fh fr sp lp hc
    rw [add_animation_success_eq c name img fw fh fr sp lp]
    dsimp only
    split
    · rfl
    · rename_i hne
      exact absurd hc hne
  · intro c name s e sp lp sheet hc hm hs hse he
    rw [add_animation_from_range_success_eq c name s e sp lp sheet hm
      (by omega) (by omega) (by omega)]
    dsimp only
    split
    · rfl
    · rename_i hne
      exact absurd hc hne
  · intro c name a frames speed lp hc
    rcases hms : c.master_sprite_sheet with _ | sheet
    · show (add_animation_from_master c name frames speed lp).2.current_animation = some a
      simp only [add_animation_from_master, hms]
      exact hc
    · rw [add_animation_from_master_success_eq c name frames speed lp sheet hms]
      dsimp only
      split
      · rename_i h0
        exact absurd (show c.current_animation = none from h0)
          (by rw [hc]; simp)
      · exact hc
  · intro c name a img fw fh fr sp lp hc
    rcases img with _ | im
    · exact hc
    · rw [add_animation_success_eq c name im fw fh fr sp lp]
      dsimp only
      split
      · rename_i h0
        exact absurd (show c.current_animation = none from h0)
          (by rw [hc]; simp)
      · exact hc
  · intro c name a s e sp lp hc
    unfold add_animation_from_range
    rcases hms : c.master_sprite_sheet with _ | sheet
    · exact hc
    · dsimp only
      split
      · exact hc
      · split
        · exact hc
        · split
          · exact hc
          · dsimp only
            split
            · rename_i h0
              exact absurd (show c.current_animation = none from h0)
                (by rw [hc]; simp)
            · exact hc

/-- Witness for C9 (amended): fresh character is idle; a first registration
on `charSheet` selects the clip on the master path (`"idle"`) and on the
range path (`"slide"`); a later registration on `charWalk` (current clip
`"walk"`) leaves the selection at `"walk"`. -/
theorem idle_until_selection_witness :
    (initChar 0 0 DirectionMode.auto_flip).current_animation = none ∧
    update (initChar 0 0 DirectionMode.auto_flip) =
      some (initChar 0 0 DirectionMode.auto_flip) ∧
    (add_animation_from_master charSheet "idle" 4 15 true).2.current_animation
      = some "idle" ∧
    (add_animation_from_range charSheet "slide" 1 4 9 true).2.current_animation
      = some "slide" ∧
    (add_animation_from_master charWalk "jump" 2 2 false).2.current_animation
      = some "walk" := by
  have h := idle_until_selection 0 0 DirectionMode.auto_flip
  exact ⟨h.1, h.2.1,
    h.2.2.1 charSheet "idle" 4 15 true (512, 512) rfl rfl,
    h.2.2.2.2.1 charSheet "slide" 1 4 9 true (512, 512) rfl rfl
      (by decide) (by decide) (by decide),
    h.2.2.2.2.2.1 charWalk "jump" "walk" 2 2 false rfl⟩

/-! ### Duplicate-name registration (C10) -/

/-- C10: when a clip is currently selected (in particular whenever the map
is non-empty, and even when `name` is the selected clip itself), each of
the three registration operations — given its usual success conditions —
returns `True` and produces exactly the old state with the name's entry
replaced by the newly built clip (plus, for the master path, the advanced
cursor): current clip, frame index and tick accumulator are untouched. -/
theorem duplicate_registration_replaces
    (c : AnimatedCharacter) (name a : String)
    (hcur : c.current_animation = some a)
    (hname : dictContains c.animations name = true) :
    (∀ (img : Nat × Nat) (fw fh fr sp : Nat) (lp : Bool),
      add_animation c name (some img) fw fh fr sp lp =
        (true, { c with animations := (dictSet c.animations name
          (sepClip img fw fh fr sp lp)) })) ∧
    (∀ (sheet : Nat × Nat) (fr sp : Nat) (lp : Bool),
      c.master_sprite_sheet = some sheet →
      add_animation_from_master c name fr sp lp =
        (true, { c with
          animations := dictSet c.animations name (masterClip c fr sp lp sheet)
          next_frame_index := c.next_frame_index + fr })) ∧
    (∀ (sheet : Nat × Nat) (s e : Int) (sp : Nat) (lp : Bool),
      c.master_sprite_sheet = some sheet → 1 ≤ s → s ≤ e →
      e ≤ ((sheet.1 / c.master_frame_width *
            (sheet.2 / c.master_frame_height) : Nat) : Int) →
      add_animation_from_range c name s e sp lp =
        (true, { c with animations := (dictSet c.animations name
          (rangeClip c s e sp lp sheet)) })) := by
  refine ⟨?_, ?_, ?_⟩
  · intro img fw fh fr sp lp
    rw [add_animation_success_eq c name img fw fh fr sp lp]
    dsimp only
    split
    · rename_i h0
      exact absurd (show c.current_animation = none from h0)
        (by rw [hcur]; simp)
    · rfl
  · intro sheet fr sp lp hm
    rw [add_animation_from_master_success_eq c name fr sp lp sheet hm]
    dsimp only
    split
    · rename_i h0
      exact absurd (show c.current_animation = none from h0)
        (by rw [hcur]; simp)
    · rfl
  · intro sheet s e sp lp hm hs hse he
    rw [add_animation_from_range_success_eq c name s e sp lp sheet hm
      (by omega) (by omega) (by omega)]
    dsimp only
    split
    · rename_i h0
      exact absurd (show c.current_animation = none from h0)
        (by rw [hcur]; simp)
    · rfl

/-- Witness for C10: re-registering `"walk"` — the currently selected clip
of `charWalk` — over the master path succeeds and replaces the entry while
the cursor fields stay put. -/
theorem duplicate_registration_replaces_witness :
    add_animation_from_master charWalk "walk" 2 7 false =
      (true, { charWalk with
        animations := (dictSet charWalk.animations "walk"
          (masterClip charWalk 2 7 false (512, 512)))
        next_frame_index := charWalk.next_frame_index + 2 }) :=
  (duplicate_registration_replaces charWalk "walk" "walk" rfl
    (by decide)).2.1 (512, 512) 2 7 false rfl

/-! ### Playback cursor invariant (C5) -/

/-- All registered clips are well-formed: at least one frame, positive
speed, and (except for `"separate"` clips, which index no position list)
one precomputed position per frame. -/
def ClipsOK (m : List (String × Clip)) : Prop :=
  ∀ (k : String) (v : Clip), dictGet m k = some v →
    1 ≤ v.frames ∧ 1 ≤ v.speed ∧
    (v.mode = "separate" ∨ v.frame_positions.length = v.frames)

/-- The playback-cursor invariant: whenever a clip is selected it exists in
the map, the frame index is below its frame count, the tick accumulator is
below its speed, and the cached `animation_speed` agrees with the clip;
with no clip selected the cursor sits at (0, 0). -/
def CursorOK (c : AnimatedCharacter) : Prop :=
  (∀ a : String, c.current_animation = some a →
    ∃ v : Clip, dictGet c.animations a = some v ∧
      c.current_frame < v.frames ∧ c.animation_timer < v.speed ∧
      c.animation_speed = v.speed) ∧
  (c.current_animation = none →
    c.current_frame = 0 ∧ c.animation_timer = 0)

/-- Full character invariant for C5. -/
def CharInv (c : AnimatedCharacter) : Prop :=
  ClipsOK c.animations ∧ CursorOK c

/-- The character used by the C5 counterexample: master sheet, one looping
2-frame clip `"a"` at speed 2. -/
def charBadA : AnimatedCharacter :=
  (add_animation_from_master charSheet "a" 2 2 true).2

/-- `charBadA` after two `update()` calls: frame 1, tick 0. -/
def charBadB : AnimatedCharacter :=
  (updateN charBadA 2).getD charBadA

/-- `charBadB` after re-registering `"a"` with only 1 frame: the cursor
still points at frame 1 of a 1-frame clip. -/
def charBad : AnimatedCharacter :=
  (add_animation_from_master charBadB "a" 1 2 true).2

/-- C5 counterexample: a state reachable through the public operations
alone — register a 2-frame clip at speed 2, update twice, re-register the
same name with 1 frame — in which every registered clip has
`frames ≥ 1` and `speed ≥ 1`, yet the cursor invariant
`current_frame < frames` is violated, and the next `update()` raises
the out-of-bounds `IndexError` (modelled as `none`). -/
theorem playback_invariant_counterexample :
    updateN charBadA 2 = some charBadB ∧
    charBad.current_animation = some "a" ∧
    charBad.current_frame = 1 ∧
    (dictGet charBad.animations "a").map Clip.frames = some 1 ∧
    (dictGet charBad.animations "a").map Clip.speed = some 2 ∧
    update charBad = none := by
  refine ⟨?_, rfl, rfl, ?_, ?_, ?_⟩ <;> decide

theorem charInv_init (x y : Int) (dm : DirectionMode) :
    CharInv (initChar x y dm) := by
  refine ⟨?_, ?_, ?_⟩
  · intro k v h
    exact Option.noConfusion h
  · intro a ha
    exact Option.noConfusion ha
  · intro _
    exact ⟨rfl, rfl⟩

theorem charInv_congr (c d : AnimatedCharacter)
    (h1 : d.animations = c.animations)
    (h2 : d.current_animation = c.current_animation)
    (h3 : d.current_frame = c.current_frame)
    (h4 : d.animation_timer = c.animation_timer)
    (h5 : d.animation_speed = c.animation_speed)
    (h : CharInv c) : CharInv d := by
  unfold CharInv CursorOK at *
  rw [h1, h2, h3, h4, h5]
  exact h

theorem clipsOK_set (m : List (String × Clip)) (hm : ClipsOK m)
    (name : String) (clip : Clip)
    (h1 : 1 ≤ clip.frames) (h2 : 1 ≤ clip.speed)
    (h3 : clip.mode = "separate" ∨ clip.frame_positions.length = clip.frames) :
    ClipsOK (dictSet m name clip) := by
  intro k v hv
  by_cases hk : k = name
  · subst hk
    rw [dictGet_dictSet_self] at hv
    cases hv
    exact ⟨h1, h2, h3⟩
  · rw [dictGet_dictSet_ne _ _ _ _ hk] at hv
    exact hm k v hv

theorem charInv_move (c : AnimatedCharacter) (h : CharInv c) (dx dy : Int) :
    CharInv (move c dx dy) := by
  unfold move
  dsimp only
  split
  · split
    · exact charInv_congr _ c rfl rfl rfl rfl rfl h
    · split
      · exact charInv_congr _ c rfl rfl rfl rfl rfl h
      · exact charInv_congr _ c rfl rfl rfl rfl rfl h
  · exact charInv_congr _ c rfl rfl rfl rfl rfl h

theorem charInv_load (c : AnimatedCharacter) (h : CharInv c)
    (img : Option (Nat × Nat)) (fw fh cols : Nat) :
    CharInv (load_master_sprite_sheet c img fw fh cols).2 := by
  cases img with
  | none => exact h
  | some im => exact charInv_congr _ c rfl rfl rfl rfl rfl h

theorem charInv_play_success (c : AnimatedCharacter) (h : CharInv c)
    (n : String) (anim : Clip) (hanim : dictGet c.animations n = some anim) :
    CharInv { c with
      current_animation := some n
      current_frame := 0
      animation_timer := 0
      animation_speed := anim.speed
      current_frame_width := anim.frame_width
      current_frame_height := anim.frame_height
      animations := dictSet c.animations n { anim with finished := false } } := by
  obtain ⟨hfr, hsp, hlen⟩ := h.1 n anim hanim
  refine ⟨?_, ?_, ?_⟩
  · exact clipsOK_set c.animations h.1 n { anim with finished := false }
      hfr hsp hlen
  · intro b hb
    have hb2 : some n = some b := hb
    cases Option.some.inj hb2
    refine ⟨{ anim with finished := false }, ?_, ?_, ?_, rfl⟩
    · show dictGet (dictSet c.animations n _) n = _
      exact dictGet_dictSet_self _ _ _
    · show 0 < ({ anim with finished := false } : Clip).frames
      exact hfr
    · show 0 < ({ anim with finished := false } : Clip).speed
      exact hsp
  · intro h0
    exact Option.noConfusion (show (some n : Option String) = none from h0)

theorem charInv_play (c : AnimatedCharacter) (h : CharInv c)
    (name : String) (reset : Bool) :
    CharInv (play_animation c name reset) := by
  unfold play_animation
  dsimp only
  split
  · exact h
  · rename_i n hres
    split
    · exact h
    · rename_i anim hanim
      split
      · exact charInv_play_success c h n anim hanim
      · exact h

theorem charInv_update (c : AnimatedCharacter) (h : CharInv c) :
    ∃ c2 : AnimatedCharacter, update c = some c2 ∧ CharInv c2 := by
  cases hca : c.current_animation with
  | none =>
      refine ⟨c, ?_, h⟩
      unfold update
      rw [hca]
  | some a =>
      obtain ⟨v, hv, hfr, ht, hsp⟩ := h.2.1 a hca
      obtain ⟨hv1, hv2, hv3⟩ := h.1 a v hv
      rw [update_step c a v hca hv]
      by_cases htick : c.animation_timer + 1 ≥ c.animation_speed
      · rw [if_pos htick]
        by_cases hadv : c.current_frame + 1 ≥ v.frames
        · rw [if_pos hadv]
          by_cases hloop : v.loop
          · rw [if_pos hloop]
            refine ⟨_, mode_check_some v _ hv3
              (show (0 : Nat) < v.frames from hv1), h.1, ?_, ?_⟩
            · intro b hb
              have hb2 : c.current_animation = some b := hb
              rw [hca] at hb2
              cases Option.some.inj hb2
              refine ⟨v, hv, ?_, ?_, hsp⟩
              · show 0 < v.frames
                exact hv1
              · show 0 < v.speed
                exact hv2
            · intro h0
              have h02 : c.current_animation = none := h0
              rw [hca] at h02
              exact Option.noConfusion h02
          · rw [if_neg hloop]
            refine ⟨_, mode_check_some v _ hv3
              (show v.frames - 1 < v.frames by omega), ?_, ?_, ?_⟩
            · show ClipsOK (dictSet c.animations a { v with finished := true })
              exact clipsOK_set c.animations h.1 a _ hv1 hv2 hv3
            · intro b hb
              have hb2 : c.current_animation = some b := hb
              rw [hca] at hb2
              cases Option.some.inj hb2
              refine ⟨{ v with finished := true }, ?_, ?_, ?_, ?_⟩
              · show dictGet (dictSet c.animations a _) a = _
                exact dictGet_dictSet_self _ _ _
              · show v.frames - 1 < ({ v with finished := true } : Clip).frames
                show v.frames - 1 < v.frames
                omega
              · show (0 : Nat) < ({ v with finished := true } : Clip).speed
                exact hv2
              · show c.animation_speed = ({ v with finished := true } : Clip).speed
                exact hsp
            · intro h0
              have h02 : c.current_animation = none := h0
              rw [hca] at h02
              exact Option.noConfusion h02
        · rw [if_neg hadv]
          refine ⟨_, mode_check_some v _ hv3
            (show c.current_frame + 1 < v.frames by omega), h.1, ?_, ?_⟩
          · intro b hb
            have hb2 : c.current_animation = some b := hb
            rw [hca] at hb2
            cases Option.some.inj hb2
            refine ⟨v, hv, ?_, ?_, hsp⟩
            · show c.current_frame + 1 < v.frames
              omega
            · show 0 < v.speed
              exact hv2
          · intro h0
            have h02 : c.current_animation = none := h0
            rw [hca] at h02
            exact Option.noConfusion h02
      · rw [if_neg htick]
        refine ⟨_, mode_check_some v _ hv3
          (show c.current_frame < v.frames from hfr), h.1, ?_, ?_⟩
        · intro b hb
          have hb2 : c.current_animation = some b := hb
          rw [hca] at hb2
          cases Option.some.inj hb2
          refine ⟨v, hv, ?_, ?_, hsp⟩
          · show c.current_frame < v.frames
            exact hfr
          · show c.animation_timer + 1 < v.speed
            omega
        · intro h0
          have h02 : c.current_animation = none := h0
          rw [hca] at h02
          exact Option.noConfusion h02

theorem charInv_register_general
    (c d : AnimatedCharacter) (h : CharInv c) (name : String) (clip : Clip)
    (h1 : 1 ≤ clip.frames) (h2 : 1 ≤ clip.speed)
    (h3 : clip.mode = "separate" ∨ clip.frame_positions.length = clip.frames)
    (hne : c.current_animation ≠ some name)
    (hanims : d.animations = dictSet c.animations name clip)
    (hcur : d.current_animation = c.current_animation ∨
      (c.current_animation = none ∧ d.current_animation = some name ∧
       d.animation_speed = clip.speed))
    (hframe : d.current_frame = c.current_frame)
    (htimer : d.animation_timer = c.animation_timer)
    (hspeed : c.current_animation ≠ none →
      d.animation_speed = c.animation_speed) :
    CharInv d := by
  refine ⟨?_, ?_, ?_⟩
  · rw [hanims]
    exact clipsOK_set _ h.1 _ _ h1 h2 h3
  · intro b hb
    rcases hcur with hsame | ⟨hnone, hdsome, hdspeed⟩
    · rw [hsame] at hb
      obtain ⟨v, hv, hfx, htx, hsx⟩ := h.2.1 b hb
      have hbne : b ≠ name := fun hbeq => hne (hbeq ▸ hb)
      refine ⟨v, ?_, ?_, ?_, ?_⟩
      · rw [hanims, dictGet_dictSet_ne _ _ _ _ hbne]
        exact hv
      · rw [hframe]
        exact hfx
      · rw [htimer]
        exact htx
      · rw [hspeed (by rw [hb]; simp)]
        exact hsx
    · rw [hdsome] at hb
      cases Option.some.inj hb
      obtain ⟨hf0, ht0⟩ := h.2.2 hnone
      refine ⟨clip, ?_, ?_, ?_, hdspeed⟩
      · rw [hanims]
        exact dictGet_dictSet_self _ _ _
      · rw [hframe, hf0]
        omega
      · rw [htimer, ht0]
        omega
  · intro h00
    rcases hcur with hsame | ⟨hnone, hdsome, _⟩
    · rw [hsame] at h00
      obtain ⟨hf0, ht0⟩ := h.2.2 h00
      exact ⟨by rw [hframe]; exact hf0, by rw [htimer]; exact ht0⟩
    · rw [hdsome] at h00
      exact Option.noConfusion h00

theorem charInv_add (c : AnimatedCharacter) (h : CharInv c)
    (name : String) (img : Option (Nat × Nat)) (fw fh fr sp : Nat) (lp : Bool)
    (hfr : 1 ≤ fr) (hsp : 1 ≤ sp)
    (hne : c.current_animation ≠ some name) :
    CharInv (add_animation c name img fw fh fr sp lp).2 := by
  cases img with
  | none => exact h
  | some im =>
      rw [add_animation_success_eq c name im fw fh fr sp lp]
      dsimp only
      split
      · rename_i h0
        exact charInv_register_general c _ h name (sepClip im fw fh fr sp lp)
          hfr hsp (Or.inl rfl) hne rfl (Or.inr ⟨h0, rfl, rfl⟩) rfl rfl
          (fun hcc => absurd h0 hcc)
      · exact charInv_register_general c _ h name (sepClip im fw fh fr sp lp)
          hfr hsp (Or.inl rfl) hne rfl (Or.inl rfl) rfl rfl (fun _ => rfl)

theorem charInv_add_master (c : AnimatedCharacter) (h : CharInv c)
    (name : String) (fr sp : Nat) (lp : Bool)
    (hfr : 1 ≤ fr) (hsp : 1 ≤ sp)
    (hne : c.current_animation ≠ some name) :
    CharInv (add_animation_from_master c name fr sp lp).2 := by
  cases hms : c.master_sprite_sheet with
  | none =>
      have heq : add_animation_from_master c name fr sp lp = (false, c) := by
        simp only [add_animation_from_master, hms]
      rw [heq]
      exact h
  | some sheet =>
      rw [add_animation_from_master_success_eq c name fr sp lp sheet hms]
      dsimp only
      split
      · rename_i h0
        exact charInv_register_general c _ h name
          (masterClip c fr sp lp sheet) hfr hsp
          (Or.inr (by simp [masterClip])) hne rfl (Or.inr ⟨h0, rfl, rfl⟩)
          rfl rfl (fun hcc => absurd h0 hcc)
      · exact charInv_register_general c _ h name
          (masterClip c fr sp lp sheet) hfr hsp
          (Or.inr (by simp [masterClip])) hne rfl (Or.inl rfl) rfl rfl
          (fun _ => rfl)

theorem charInv_add_range (c : AnimatedCharacter) (h : CharInv c)
    (name : String) (s e : Int) (sp : Nat) (lp : Bool)
    (hsp : 1 ≤ sp)
    (hne : c.current_animation ≠ some name) :
    CharInv (add_animation_from_range c name s e sp lp).2 := by
  cases hms : c.master_sprite_sheet with
  | none =>
      have heq : add_animation_from_range c name s e sp lp = (false, c) := by
        simp only [add_animation_from_range, hms]
      rw [heq]
      exact h
  | some sheet =>
      by_cases h1 : s < 1
      · have heq : add_animation_from_range c name s e sp lp = (false, c) := by
          simp only [add_animation_from_range, hms, if_pos h1]
        rw [heq]
        exact h
      · by_cases h2 : e < s
        · have heq : add_animation_from_range c name s e sp lp = (false, c) := by
            simp only [add_animation_from_range, hms, if_neg h1, if_pos h2]
          rw [heq]
          exact h
        · by_cases h3 : e > ((sheet.1 / c.master_frame_width *
              (sheet.2 / c.master_frame_height) : Nat) : Int)
          · have heq : add_animation_from_range c name s e sp lp = (false, c) := by
              simp only [add_animation_from_range, hms, if_neg h1, if_neg h2,
                if_pos h3]
            rw [heq]
            exact h
          · rw [add_animation_from_range_success_eq c name s e sp lp sheet
              hms h1 h2 h3]
            dsimp only
            have hfr : 1 ≤ (rangeClip c s e sp lp sheet).frames := by
              show 1 ≤ (e - s + 1).toNat
              omega
            split
            · rename_i h0
              exact charInv_register_general c _ h name
                (rangeClip c s e sp lp sheet) hfr hsp
                (Or.inr (by simp [rangeClip])) hne rfl
                (Or.inr ⟨h0, rfl, rfl⟩) rfl rfl (fun hcc => absurd h0 hcc)
            · exact charInv_register_general c _ h name
                (rangeClip c s e sp lp sheet) hfr hsp
                (Or.inr (by simp [rangeClip])) hne rfl (Or.inl rfl) rfl rfl
                (fun _ => rfl)

/-- C5 (amended): the playback-cursor invariant — selected clip present,
`0 ≤ current_frame < frames`, `0 ≤ tick < speed` (with the cached speed in
sync) — holds for a fresh character and is preserved by `move`, by
`load_master_sprite_sheet`, by `play_animation`, by `update` (which then
also cannot raise a frame-index error: it returns `some`), and by each
registration call with `frames ≥ 1` and `speed ≥ 1` PROVIDED the
registered name is not the currently selected clip; re-registering the
selected name can break the invariant (see the counterexample), which is
the one restriction the original claim lacked. -/
theorem playback_cursor_invariant
    (x y : Int) (dm : DirectionMode) (c : AnimatedCharacter)
    (hInv : CharInv c) :
    CharInv (initChar x y dm) ∧
    (∀ dx dy : Int, CharInv (move c dx dy)) ∧
    (∀ (img : Option (Nat × Nat)) (fw fh cols : Nat),
      CharInv (load_master_sprite_sheet c img fw fh cols).2) ∧
    (∀ (name : String) (r : Bool), CharInv (play_animation c name r)) ∧
    (∃ c2 : AnimatedCharacter, update c = some c2 ∧ CharInv c2) ∧
    (∀ (name : String) (img : Option (Nat × Nat)) (fw fh fr sp : Nat)
       (lp : Bool), 1 ≤ fr → 1 ≤ sp → c.current_animation ≠ some name →
      CharInv (add_animation c name img fw fh fr sp lp).2) ∧
    (∀ (name : String) (fr sp : Nat) (lp : Bool),
      1 ≤ fr → 1 ≤ sp → c.current_animation ≠ some name →
      CharInv (add_animation_from_master c name fr sp lp).2) ∧
    (∀ (name : String) (s e : Int) (sp : Nat) (lp : Bool),
      1 ≤ sp → c.current_animation ≠ some name →
      CharInv (add_animation_from_range c name s e sp lp).2) :=
  ⟨charInv_init x y dm,
   fun dx dy => charInv_move c hInv dx dy,
   fun img fw fh cols => charInv_load c hInv img fw fh cols,
   fun name r => charInv_play c hInv name r,
   charInv_update c hInv,
   fun name img fw fh fr sp lp hfr hsp hne =>
     charInv_add c hInv name img fw fh fr sp lp hfr hsp hne,
   fun name fr sp lp hfr hsp hne =>
     charInv_add_master c hInv name fr sp lp hfr hsp hne,
   fun name s e sp lp hsp hne =>
     charInv_add_range c hInv name s e sp lp hsp hne⟩

theorem charInv_charWalk : CharInv charWalk := by
  refine ⟨?_, ?_, ?_⟩
  · intro k v hv
    have hw : charWalk.animations = [("walk", walkClip)] := rfl
    rw [hw] at hv
    by_cases hk : ("walk" : String) = k
    · simp only [dictGet, if_pos hk] at hv
      cases Option.some.inj hv
      exact ⟨by decide, by decide, Or.inr (by decide)⟩
    · simp only [dictGet, if_neg hk] at hv
      exact Option.noConfusion hv
  · intro a ha
    have hcw : charWalk.current_animation = some "walk" := rfl
    rw [hcw] at ha
    cases Option.some.inj ha
    exact ⟨walkClip, rfl, by decide, by decide, rfl⟩
  · intro h0
    exact Option.noConfusion
      (show (some "walk" : Option String) = none from h0)

/-- Witness for C5 (amended): instantiated on `charWalk` (clip `"walk"`
selected at frame 0, tick 0). -/
theorem playback_cursor_invariant_witness :
    CharInv (initChar 0 0 DirectionMode.auto_flip) ∧
    CharInv (move charWalk 5 0) ∧
    (∃ c2 : AnimatedCharacter, update charWalk = some c2 ∧ CharInv c2) ∧
    CharInv (play_animation charWalk "walk" true) ∧
    CharInv (add_animation_from_master charWalk "jump" 4 6 false).2 := by
  have h := playback_cursor_invariant 0 0 DirectionMode.auto_flip charWalk
    charInv_charWalk
  exact ⟨h.1, h.2.1 5 0, h.2.2.2.2.1, h.2.2.2.1 "walk" true,
    h.2.2.2.2.2.2.1 "jump" 4 6 false (by decide) (by decide) (by decide)⟩
